import Mathlib

/-!
Verification of the contact/user repository layer of a contacts-management
backend (`src/repository/contacts.py`, `src/repository/users.py`), via a
shallow embedding: the relational store is a list of rows, SQLAlchemy
query chains (`filter … offset … limit … all/first`) become list
operations, and ORM row mutation / deletion become replacement / removal
of the first matching row (primary keys are unique in the real store).
-/

namespace ContactsApp

/-- A calendar date, as Python's `datetime.date` (proleptic Gregorian). -/
structure Date where
  year : Nat
  month : Nat
  day : Nat
deriving Repr, DecidableEq

/-- Gregorian leap-year rule, as in Python's `calendar`/`datetime`. -/
def isLeap (y : Nat) : Bool :=
  y % 4 == 0 && (y % 100 != 0 || y % 400 == 0)

/-- Number of days in a month of a given year. -/
def daysInMonth (y m : Nat) : Nat :=
  if m == 2 then (if isLeap y then 29 else 28)
  else if m == 4 || m == 6 || m == 9 || m == 11 then 30
  else 31

/-- Successor day, as `date + timedelta(days=1)`. -/
def nextDay (d : Date) : Date :=
  if d.day < daysInMonth d.year d.month then
    { d with day := d.day + 1 }
  else if d.month < 12 then
    { year := d.year, month := d.month + 1, day := 1 }
  else
    { year := d.year + 1, month := 1, day := 1 }

/-- `date + timedelta(days=n)`. -/
def addDays (d : Date) : Nat → Date
  | 0 => d
  | n + 1 => nextDay (addDays d n)

/-- Zero-padded two-digit rendering, as in `strftime`. -/
def pad2 (n : Nat) : String :=
  if n < 10 then "0" ++ toString n else toString n

/-- `d.strftime("%m-%d")` / `TO_CHAR(d, 'MM-DD')`: the `MM-DD` string. -/
def mmdd (d : Date) : String :=
  pad2 d.month ++ "-" ++ pad2 d.day

/-- Lexicographic `≤` on character lists: SQL's string comparison used by
`BETWEEN` on the `MM-DD` strings. -/
def lexLe : List Char → List Char → Bool
  | [], _ => true
  | _ :: _, [] => false
  | a :: as, b :: bs =>
    if a < b then true else if b < a then false else lexLe as bs

/-- SQL string `≤`, lexicographic on characters. -/
def strLe (a b : String) : Bool := lexLe a.toList b.toList

/-- Core of SQL `LIKE`, with explicit fuel so the recursion is
structural: `%` matches any run of characters, `_` any one character,
anything else itself.  Each step shrinks `pattern.length + s.length`, so
fuel `pattern.length + s.length + 1` never runs out. -/
def likeMatchFuel : Nat → List Char → List Char → Bool
  | 0, _, _ => false
  | _ + 1, [], [] => true
  | _ + 1, [], _ :: _ => false
  | fuel + 1, '%' :: ps, s =>
    likeMatchFuel fuel ps s ||
      (match s with
       | [] => false
       | _ :: rest => likeMatchFuel fuel ('%' :: ps) rest)
  | fuel + 1, '_' :: ps, s =>
    (match s with
     | [] => false
     | _ :: rest => likeMatchFuel fuel ps rest)
  | fuel + 1, p :: ps, s =>
    (match s with
     | [] => false
     | c :: rest => c == p && likeMatchFuel fuel ps rest)

/-- SQL `LIKE` of a value `s` against a pattern. -/
def likeMatch (pattern s : List Char) : Bool :=
  likeMatchFuel (pattern.length + s.length + 1) pattern s

/-- Lowercase a string character-wise (Python `str.lower`, SQL `LOWER`). -/
def lowerStr (s : String) : String := String.mk (s.data.map Char.toLower)

/-- SQL `ILIKE`: case-insensitive `LIKE` of the column value `s` against
the pattern `pat` — the whole value must match the pattern. -/
def ilike (s pat : String) : Bool :=
  likeMatch (lowerStr pat).toList (lowerStr s).toList

/-- A row of the `contacts` table (`src/database` model `Contact`). -/
structure Contact where
  id : Nat
  first_name : String
  last_name : String
  email : Option String
  phone_number : Option String
  birthday : Option Date
  user_id : Nat
deriving Repr, DecidableEq

/-- The authenticated caller; only `id` is consulted by the contact
repository. -/
structure User where
  id : Nat
deriving Repr, DecidableEq

/-- Validated request body (`ContactRequest` in `src/schemas.py`). -/
structure ContactRequest where
  first_name : String
  last_name : String
  email : Option String
  phone_number : Option String
  birthday : Option Date
deriving Repr, DecidableEq

/-- The contacts store: the table rows in insertion order, plus the next
autoincrement primary key. -/
structure DB where
  contacts : List Contact
  next_id : Nat
deriving Repr, DecidableEq

/-- Replace the first element satisfying `p` by its image under `f`
(ORM: mutate the row returned by `.first()` and commit). -/
def replaceFirst (p : α → Bool) (f : α → α) : List α → List α
  | [] => []
  | x :: xs => if p x then f x :: xs else x :: replaceFirst p f xs

/-- Remove the first element satisfying `p`
(ORM: `db.delete` the row returned by `.first()` and commit). -/
def eraseFirst (p : α → Bool) : List α → List α
  | [] => []
  | x :: xs => if p x then xs else x :: eraseFirst p xs

/-- `get_contacts`:
`query(Contact).filter(user_id == user.id).offset(o).limit(l).all()`. -/
def get_contacts (offset limit : Nat) (user : User) (db : DB) : List Contact :=
  (((db.contacts.filter (fun c => c.user_id == user.id)).drop offset).take limit)

/-- `get_contact`:
`query(Contact).filter(user_id == user.id).filter(id == contact_id).first()`. -/
def get_contact (contact_id : Nat) (user : User) (db : DB) : Option Contact :=
  (((db.contacts.filter (fun c => c.user_id == user.id)).filter
      (fun c => c.id == contact_id)).head?)

/-- `create_contact`: build a `Contact` from the body with
`user_id = user.id`, `db.add`, `db.commit`, `db.refresh` (which fills the
autoincrement id); returns the persisted contact. -/
def create_contact (body : ContactRequest) (user : User) (db : DB) :
    Contact × DB :=
  let contact : Contact :=
    { id := db.next_id
      first_name := body.first_name
      last_name := body.last_name
      email := body.email
      phone_number := body.phone_number
      birthday := body.birthday
      user_id := user.id }
  (contact, { contacts := db.contacts ++ [contact], next_id := db.next_id + 1 })

/-- The row predicate of `update_contact` / `remove_contact`:
`and_(Contact.id == contact_id, Contact.user_id == user.id)`. -/
def ownedRow (contact_id : Nat) (user : User) (c : Contact) : Bool :=
  c.id == contact_id && c.user_id == user.id

/-- Field assignment block of `update_contact`: overwrite the five
mutable fields from the body. -/
def applyBody (body : ContactRequest) (c : Contact) : Contact :=
  { c with
      first_name := body.first_name
      last_name := body.last_name
      email := body.email
      phone_number := body.phone_number
      birthday := body.birthday }

/-- `update_contact`: find the first row with the caller's id and the
given contact id; if present overwrite its five mutable fields and
commit, else leave the store alone; return the row (or `None`). -/
def update_contact (contact_id : Nat) (body : ContactRequest) (user : User)
    (db : DB) : Option Contact × DB :=
  match (db.contacts.filter (ownedRow contact_id user)).head? with
  | none => (none, db)
  | some c =>
    (some (applyBody body c),
      { db with
          contacts :=
            replaceFirst (ownedRow contact_id user) (applyBody body)
              db.contacts })

/-- `remove_contact`: find the first row with the caller's id and the
given contact id; if present delete it and commit; return the row (or
`None`). -/
def remove_contact (contact_id : Nat) (user : User) (db : DB) :
    Option Contact × DB :=
  match (db.contacts.filter (ownedRow contact_id user)).head? with
  | none => (none, db)
  | some c =>
    (some c,
      { db with contacts := eraseFirst (ownedRow contact_id user) db.contacts })

/-- The row predicate of `search_contacts`: owned by the caller and
`first_name ILIKE q OR last_name ILIKE q OR email ILIKE q`
(a SQL `NULL` email makes its disjunct false). -/
def searchRow (q : String) (user : User) (c : Contact) : Bool :=
  c.user_id == user.id &&
    (ilike c.first_name q || ilike c.last_name q ||
      (match c.email with
       | some e => ilike e q
       | none => false))

/-- `search_contacts`:
`query(Contact).filter(and_(user_id == user.id, first_name.ilike(q) | last_name.ilike(q) | email.ilike(q))).offset(o).limit(l).all()`. -/
def search_contacts (q : String) (offset limit : Nat) (user : User)
    (db : DB) : List Contact :=
  (((db.contacts.filter (searchRow q user)).drop offset).take limit)

/-- The row predicate of `find_contacts_by_birthday`:
`TO_CHAR(birthday, 'MM-DD') BETWEEN :start_date AND :end_date` (false for a
`NULL` birthday, since `TO_CHAR(NULL, …)` is `NULL`) and
`user_id == user.id`. -/
def birthdayRow (start_date end_date : String) (user : User) (c : Contact) :
    Bool :=
  (match c.birthday with
   | some b => strLe start_date (mmdd b) && strLe (mmdd b) end_date
   | none => false) && c.user_id == user.id

/-- `find_contacts_by_birthday`: `start_date = today.strftime("%m-%d")`,
`end_date = (today + timedelta(days=7)).strftime("%m-%d")`, then
`query(Contact).filter(and_(text("TO_CHAR(birthday, 'MM-DD') BETWEEN …"), user_id == user.id)).all()`.
The ambient `date.today()` is the extra `today` parameter; note the
source never applies `offset` or `limit` to the query. -/
def find_contacts_by_birthday (offset limit : Nat) (user : User) (db : DB)
    (today : Date) : List Contact :=
  let start_date := mmdd today
  let end_date := mmdd (addDays today 7)
  db.contacts.filter (birthdayRow start_date end_date user)

/-- A row of the `users` table (`src/database` model `User`), as touched
by `src/repository/users.py`. -/
structure DBUser where
  id : Nat
  username : String
  email : String
  password : String
  avatar : Option String
  confirmed : Bool
  refresh_token : Option String
deriving Repr, DecidableEq

/-- Validated signup body (`UserModel` in `src/schemas.py`). -/
structure UserModel where
  username : String
  email : String
  password : String
deriving Repr, DecidableEq

/-- `get_user_by_email`: `query(User).filter(email == email).first()`. -/
def get_user_by_email (email : String) (users : List DBUser) :
    Option DBUser :=
  (users.filter (fun u => u.email == email)).head?

/-- `create_user`: `avatar = None`; `try: avatar = Gravatar(body.email).get_image() except Exception as e: print(e)`;
persist `User(**body.model_dump(), avatar=avatar)` and return it with its
autoincrement id.  The external gravatar lookup is the `gravatar`
parameter: `Except.ok url` when the call returns `url`,
`Except.error e` when it raises. -/
def create_user (body : UserModel) (gravatar : Except String String)
    (next_id : Nat) (users : List DBUser) : DBUser × List DBUser :=
  let avatar : Option String :=
    match gravatar with
    | Except.ok url => some url
    | Except.error _ => none
  let new_user : DBUser :=
    { id := next_id
      username := body.username
      email := body.email
      password := body.password
      avatar := avatar
      confirmed := false
      refresh_token := none }
  (new_user, users ++ [new_user])

/-- `confirmed_email`: `user = get_user_by_email(email, db)` then the
unguarded `user.confirmed = True; db.commit()`.  When the lookup returns
`None` the attribute assignment raises `AttributeError`, modelled as
`Except.error`. -/
def confirmed_email (email : String) (users : List DBUser) :
    Except String (List DBUser) :=
  match get_user_by_email email users with
  | none => Except.error "AttributeError: NoneType has no attribute confirmed"
  | some _ =>
    Except.ok
      (replaceFirst (fun u => u.email == email)
        (fun u => { u with confirmed := true }) users)

/-- `update_avatar`: `user = get_user_by_email(email, db)` then the
unguarded `user.avatar = url; db.commit(); return user`.  When the lookup
returns `None` the attribute assignment raises `AttributeError`, modelled
as `Except.error`. -/
def update_avatar (email url : String) (users : List DBUser) :
    Except String (DBUser × List DBUser) :=
  match get_user_by_email email users with
  | none => Except.error "AttributeError: NoneType has no attribute avatar"
  | some u =>
    Except.ok
      ({ u with avatar := some url },
        replaceFirst (fun x => x.email == email)
          (fun x => { x with avatar := some url }) users)

/-- Case-insensitive substring containment, written from the spec's words
for the search operation ("case-insensitively contains q as a
substring"), to be compared with the source's `ilike`. -/
def specStartsWith : List Char → List Char → Bool
  | [], _ => true
  | _ :: _, [] => false
  | a :: as, b :: bs => a == b && specStartsWith as bs

/-- Does `q` occur as a contiguous substring of `s` (on char lists)? -/
def specContainsSub (q : List Char) : List Char → Bool
  | [] => q.isEmpty
  | c :: rest => specStartsWith q (c :: rest) || specContainsSub q rest

/-- Spec-side predicate: `s` case-insensitively contains `q`. -/
def specContainsCI (s q : String) : Bool :=
  specContainsSub (lowerStr q).toList (lowerStr s).toList

/-- The rows of the store owned by users other than `u`, in store order:
the part of the table that user-scoped operations must not touch. -/
def foreignRows (u : User) (db : DB) : List Contact :=
  db.contacts.filter (fun c => !(c.user_id == u.id))

/-- Concrete caller used by the closed instances below. -/
def uW : User := ⟨1⟩

/-- A concrete valid request body. -/
def bodyW : ContactRequest :=
  ⟨"Ann", "Lee", some "ann@example.com", some "+380501234567",
    some ⟨1990, 1, 2⟩⟩

/-- A contact whose first name contains the word John. -/
def cJohnny : Contact :=
  ⟨10, "Johnny", "Smith", some "js@example.com", none, none, 1⟩

/-- Store holding only `cJohnny`. -/
def dbJ : DB := ⟨[cJohnny], 11⟩

/-- A contact owned by a different user (id 2). -/
def cEve : Contact :=
  ⟨20, "Eve", "Adams", some "eve@example.com", none, some ⟨1991, 3, 4⟩, 2⟩

/-- A contact owned by the caller `uW`. -/
def cBob : Contact := ⟨21, "Bob", "Stone", none, none, some ⟨1992, 5, 12⟩, 1⟩

/-- Store mixing a caller-owned and a foreign-owned row. -/
def dbMix : DB := ⟨[cBob, cEve], 22⟩

/-- A concrete current date in mid-year. -/
def tW : Date := ⟨2024, 5, 10⟩

/-- Two caller-owned contacts with birthdays inside the week after `tW`. -/
def cAda : Contact := ⟨31, "Ada", "Byron", none, none, some ⟨1990, 5, 12⟩, 1⟩

/-- Second contact with a birthday inside the week after `tW`. -/
def cCarl : Contact := ⟨32, "Carl", "Gauss", none, none, some ⟨1985, 5, 11⟩, 1⟩

/-- Store with two birthday-window matches. -/
def dbPag : DB := ⟨[cAda, cCarl], 33⟩

/-- A caller-owned contact whose birthday falls right after year end
starts wrapping (December 30). -/
def cMax : Contact := ⟨35, "Max", "Born", none, none, some ⟨1992, 12, 30⟩, 1⟩

/-- Store holding only `cMax`. -/
def dbYear : DB := ⟨[cMax], 36⟩

/-- A current date whose 7-day window crosses the year boundary. -/
def dW : Date := ⟨2023, 12, 28⟩

/-- The empty store. -/
def dbEmpty : DB := ⟨[], 1⟩

/-- A contact with id 30 owned by user 2: foreign to caller `uW`. -/
def cKim : Contact := ⟨30, "Kim", "Koval", none, none, none, 2⟩

/-- Store holding only the foreign-owned `cKim`. -/
def dbForeign : DB := ⟨[cKim], 31⟩

/-- A caller-owned contact used for the delete / update instances. -/
def cRem : Contact := ⟨40, "Rem", "Ove", none, none, none, 1⟩

/-- Store holding only `cRem`. -/
def dbRem : DB := ⟨[cRem], 41⟩

/-- A concrete user row. -/
def aliceW : DBUser :=
  ⟨1, "alice", "alice@example.com", "secret", none, false, none⟩

/-- Users table holding only `aliceW`. -/
def usersW : List DBUser := [aliceW]

/-! ### Helper lemmas on the query/mutation primitives -/

theorem filter_head?_eq_none {α : Type} (p : α → Bool) (l : List α)
    (h : ∀ x ∈ l, p x = false) : (l.filter p).head? = none := by
  rw [List.head?_eq_none_iff, List.filter_eq_nil_iff]
  intro a ha
  simp [h a ha]

theorem mem_of_filter_head? {α : Type} {p : α → Bool} {l : List α} {c : α}
    (h : (l.filter p).head? = some c) : c ∈ l ∧ p c = true := by
  have hmem : c ∈ l.filter p :=
    List.mem_of_mem_head? (Option.mem_def.mpr h)
  exact List.mem_filter.mp hmem

theorem filter_head?_decomp {α : Type} {p : α → Bool} :
    ∀ {l : List α} {c : α}, (l.filter p).head? = some c →
      ∃ l1 l2, l = l1 ++ c :: l2 ∧ ∀ x ∈ l1, p x = false := by
  intro l
  induction l with
  | nil => intro c h; simp [List.filter] at h
  | cons x xs ih =>
    intro c h
    rw [List.filter_cons] at h
    split at h
    · simp only [List.head?_cons, Option.some.injEq] at h
      exact ⟨[], xs, by simp [h], by simp⟩
    · obtain ⟨l1, l2, heq, hall⟩ := ih h
      refine ⟨x :: l1, l2, by simp [heq], ?_⟩
      intro y hy
      rcases List.mem_cons.mp hy with rfl | hy2
      · exact Bool.eq_false_iff.mpr (by assumption)
      · exact hall y hy2

theorem replaceFirst_append_cons {α : Type} (p : α → Bool) (f : α → α)
    {l1 : List α} (c : α) (l2 : List α)
    (h1 : ∀ x ∈ l1, p x = false) (hc : p c = true) :
    replaceFirst p f (l1 ++ c :: l2) = l1 ++ f c :: l2 := by
  induction l1 with
  | nil => simp [replaceFirst, hc]
  | cons y ys ih =>
    have hy : p y = false := h1 y (List.mem_cons_self y ys)
    simp only [List.cons_append, replaceFirst, hy, Bool.false_eq_true,
      if_false, List.cons.injEq, true_and]
    exact ih fun x hx => h1 x (List.mem_cons_of_mem y hx)

theorem eraseFirst_append_cons {α : Type} (p : α → Bool)
    {l1 : List α} (c : α) (l2 : List α)
    (h1 : ∀ x ∈ l1, p x = false) (hc : p c = true) :
    eraseFirst p (l1 ++ c :: l2) = l1 ++ l2 := by
  induction l1 with
  | nil => simp [eraseFirst, hc]
  | cons y ys ih =>
    have hy : p y = false := h1 y (List.mem_cons_self y ys)
    simp only [List.cons_append, eraseFirst, hy, Bool.false_eq_true,
      if_false, List.cons.injEq, true_and]
    exact ih fun x hx => h1 x (List.mem_cons_of_mem y hx)

theorem filter_replaceFirst {α : Type} (p q : α → Bool) (f : α → α)
    (l : List α) (h : ∀ x, p x = true → q x = false ∧ q (f x) = false) :
    (replaceFirst p f l).filter q = l.filter q := by
  induction l with
  | nil => rfl
  | cons x xs ih =>
    by_cases hp : p x = true
    · obtain ⟨hqx, hqfx⟩ := h x hp
      simp [replaceFirst, hp, List.filter_cons, hqx, hqfx]
    · have hpf : p x = false := Bool.eq_false_iff.mpr hp
      simp only [replaceFirst, hpf, Bool.false_eq_true, if_false,
        List.filter_cons, ih]

theorem filter_eraseFirst {α : Type} (p q : α → Bool) (l : List α)
    (h : ∀ x, p x = true → q x = false) :
    (eraseFirst p l).filter q = l.filter q := by
  induction l with
  | nil => rfl
  | cons x xs ih =>
    by_cases hp : p x = true
    · simp [eraseFirst, hp, List.filter_cons, h x hp]
    · have hpf : p x = false := Bool.eq_false_iff.mpr hp
      simp only [eraseFirst, hpf, Bool.false_eq_true, if_false,
        List.filter_cons, ih]

theorem lexLe_trans {a : List Char} :
    ∀ {b c : List Char}, lexLe a b = true → lexLe b c = true →
      lexLe a c = true := by
  induction a with
  | nil => intro b c _ _; rfl
  | cons x xs ih =>
    intro b c h1 h2
    match b, c with
    | [], _ => simp [lexLe] at h1
    | _ :: _, [] => simp [lexLe] at h2
    | y :: ys, z :: zs =>
      simp only [lexLe] at h1 h2 ⊢
      rcases lt_trichotomy x y with hxy | rfl | hyx
      · rcases lt_trichotomy y z with hyz | rfl | hzy
        · simp [lt_trans hxy hyz]
        · simp [hxy]
        · simp [lt_asymm hzy, hzy] at h2
      · rcases lt_trichotomy x z with hxz | rfl | hzx
        · simp [hxz]
        · simp only [lt_irrefl, if_false] at h1 h2 ⊢
          exact ih h1 h2
        · simp [lt_asymm hzx, hzx] at h2
      · simp [lt_asymm hyx, hyx] at h1

theorem strLe_trans {a b c : String} (h1 : strLe a b = true)
    (h2 : strLe b c = true) : strLe a c = true :=
  lexLe_trans h1 h2

theorem update_result_owner {contact_id : Nat} {body : ContactRequest}
    {u : User} {db : DB} {x : Contact}
    (h : (update_contact contact_id body u db).1 = some x) :
    x.user_id = u.id := by
  unfold update_contact at h
  cases hfind : (db.contacts.filter (ownedRow contact_id u)).head? with
  | none => rw [hfind] at h; simp at h
  | some c0 =>
    rw [hfind] at h
    simp only [Option.some.injEq] at h
    have hp : ownedRow contact_id u c0 = true :=
      (mem_of_filter_head? hfind).2
    have hu : c0.user_id = u.id := by
      simp only [ownedRow, Bool.and_eq_true, beq_iff_eq] at hp
      exact hp.2
    rw [← h]
    simpa [applyBody] using hu

theorem remove_result_owner {contact_id : Nat} {u : User} {db : DB}
    {x : Contact} (h : (remove_contact contact_id u db).1 = some x) :
    x.user_id = u.id := by
  unfold remove_contact at h
  cases hfind : (db.contacts.filter (ownedRow contact_id u)).head? with
  | none => rw [hfind] at h; simp at h
  | some c0 =>
    rw [hfind] at h
    simp only [Option.some.injEq] at h
    have hp : ownedRow contact_id u c0 = true :=
      (mem_of_filter_head? hfind).2
    have hu : c0.user_id = u.id := by
      simp only [ownedRow, Bool.and_eq_true, beq_iff_eq] at hp
      exact hp.2
    rw [← h]; exact hu

/-- C1: every contact repository operation reads or mutates only rows
owned by the calling user — for any contact `c` owned by a different
user, no operation invoked with `u` returns `c`, and the foreign-owned
part of the store is left unchanged by every mutation. -/
theorem contacts_scoped_to_user
    (offset limit contact_id : Nat) (q : String) (body : ContactRequest)
    (u : User) (db : DB) (today : Date) (c : Contact)
    (hc : c.user_id ≠ u.id) :
    c ∉ get_contacts offset limit u db ∧
    get_contact contact_id u db ≠ some c ∧
    ((create_contact body u db).1.user_id = u.id ∧
      foreignRows u (create_contact body u db).2 = foreignRows u db) ∧
    ((update_contact contact_id body u db).1 ≠ some c ∧
      foreignRows u (update_contact contact_id body u db).2 =
        foreignRows u db) ∧
    ((remove_contact contact_id u db).1 ≠ some c ∧
      foreignRows u (remove_contact contact_id u db).2 = foreignRows u db) ∧
    c ∉ search_contacts q offset limit u db ∧
    c ∉ find_contacts_by_birthday offset limit u db today := by
  have howned : ∀ x : Contact, ownedRow contact_id u x = true →
      x.user_id = u.id := by
    intro x hx
    simp only [ownedRow, Bool.and_eq_true, beq_iff_eq] at hx
    exact hx.2
  refine ⟨?_, ?_, ⟨rfl, ?_⟩, ⟨?_, ?_⟩, ⟨?_, ?_⟩, ?_, ?_⟩
  · intro hmem
    have h1 := List.mem_of_mem_drop (List.mem_of_mem_take hmem)
    have h2 := (List.mem_filter.mp h1).2
    exact hc (by simpa using h2)
  · intro heq
    have h1 := (mem_of_filter_head? heq).1
    have h2 := (List.mem_filter.mp h1).2
    exact hc (by simpa using h2)
  · simp [foreignRows, create_contact, List.filter_append]
  · intro heq
    exact hc (update_result_owner heq)
  · unfold update_contact
    cases hfind : (db.contacts.filter (ownedRow contact_id u)).head? with
    | none => rfl
    | some c0 =>
      simp only [foreignRows]
      apply filter_replaceFirst
      intro x hx
      have hux : x.user_id = u.id := howned x hx
      constructor
      · simp [hux]
      · simp [applyBody, hux]
  · intro heq
    exact hc (remove_result_owner heq)
  · unfold remove_contact
    cases hfind : (db.contacts.filter (ownedRow contact_id u)).head? with
    | none => rfl
    | some c0 =>
      simp only [foreignRows]
      apply filter_eraseFirst
      intro x hx
      simp [howned x hx]
  · intro hmem
    have h1 := List.mem_of_mem_drop (List.mem_of_mem_take hmem)
    have h2 := (List.mem_filter.mp h1).2
    simp only [searchRow, Bool.and_eq_true, beq_iff_eq] at h2
    exact hc h2.1
  · intro hmem
    have h2 := (List.mem_filter.mp hmem).2
    simp only [birthdayRow, Bool.and_eq_true, beq_iff_eq] at h2
    exact hc h2.2

/-- Closed instance of C1: the foreign-owned contact `cEve` is invisible
to caller `uW` in a concrete mixed store. -/
theorem contacts_scoped_to_user_witness :
    cEve ∉ get_contacts 0 10 uW dbMix ∧
    cEve ∉ search_contacts "%a%" 0 10 uW dbMix :=
  ⟨(contacts_scoped_to_user 0 10 20 "%a%" bodyW uW dbMix tW cEve
      (by decide)).1,
   (contacts_scoped_to_user 0 10 20 "%a%" bodyW uW dbMix tW cEve
      (by decide)).2.2.2.2.2.1⟩

/-- C2, as stated, is false: the contact `cJohnny` (first name Johnny,
owned by the caller) case-insensitively contains the query John as a
substring, yet `search_contacts` returns nothing, because the source
passes the query to SQL `ILIKE` with no `%` wildcards, so the whole
field must match. -/
theorem search_substring_claim_cex :
    specContainsCI cJohnny.first_name "John" = true ∧
    cJohnny ∈ dbJ.contacts ∧ cJohnny.user_id = uW.id ∧
    search_contacts "John" 0 10 uW dbJ = [] := by
  refine ⟨by decide, by decide, by decide, by decide⟩

/-- C2 amended: `search_contacts q` returns exactly (up to the
offset/limit page) the caller's contacts in which the first name OR last
name OR email case-insensitively matches `q` as a whole-field SQL `LIKE`
pattern — not mere substring containment. -/
theorem search_contacts_ilike_semantics (q : String) (offset limit : Nat)
    (u : User) (db : DB) :
    (∀ c ∈ search_contacts q offset limit u db,
        c ∈ db.contacts ∧ c.user_id = u.id ∧
          (ilike c.first_name q = true ∨ ilike c.last_name q = true ∨
            ∃ e, c.email = some e ∧ ilike e q = true)) ∧
    (∀ c ∈ db.contacts, c.user_id = u.id →
        (ilike c.first_name q = true ∨ ilike c.last_name q = true ∨
          ∃ e, c.email = some e ∧ ilike e q = true) →
        c ∈ search_contacts q 0 db.contacts.length u db) := by
  constructor
  · intro c hmem
    have h1 := List.mem_of_mem_drop (List.mem_of_mem_take hmem)
    obtain ⟨hin, hrow⟩ := List.mem_filter.mp h1
    simp only [searchRow, Bool.and_eq_true, Bool.or_eq_true,
      beq_iff_eq] at hrow
    refine ⟨hin, hrow.1, ?_⟩
    rcases hrow.2 with (hf | hl) | he
    · exact Or.inl hf
    · exact Or.inr (Or.inl hl)
    · refine Or.inr (Or.inr ?_)
      cases hmail : c.email with
      | none => rw [hmail] at he; simp at he
      | some e => rw [hmail] at he; exact ⟨e, rfl, he⟩
  · intro c hin hu hmatch
    have hrow : searchRow q u c = true := by
      simp only [searchRow, Bool.and_eq_true, Bool.or_eq_true, beq_iff_eq]
      refine ⟨hu, ?_⟩
      rcases hmatch with hf | hl | ⟨e, he, hq⟩
      · exact Or.inl (Or.inl hf)
      · exact Or.inl (Or.inr hl)
      · rw [he]; exact Or.inr hq
    have hmemf : c ∈ db.contacts.filter (searchRow q u) :=
      List.mem_filter.mpr ⟨hin, hrow⟩
    unfold search_contacts
    rw [List.drop_zero, List.take_of_length_le
      (le_trans (List.length_filter_le _ _) (le_refl _))]
    exact hmemf

/-- Closed instance of the amended C2: an exact case-insensitive match
is returned by the search. -/
theorem search_contacts_ilike_semantics_witness :
    cJohnny ∈ search_contacts "jOhNnY" 0 dbJ.contacts.length uW dbJ :=
  (search_contacts_ilike_semantics "jOhNnY" 0 0 uW dbJ).2 cJohnny
    (by decide) (by decide) (Or.inl (by decide))

/-- C3, as stated, is false: with a users table that has no row for the
addressed email, `get_user_by_email` returns `None`, after which
`confirmed_email` and `update_avatar` perform an attribute assignment on
`None` and raise `AttributeError` instead of returning a null result. -/
theorem users_notfound_claim_cex :
    get_user_by_email "absent@example.com" usersW = none ∧
    confirmed_email "absent@example.com" usersW =
      Except.error "AttributeError: NoneType has no attribute confirmed" ∧
    update_avatar "absent@example.com" "https://cdn/av.png" usersW =
      Except.error "AttributeError: NoneType has no attribute avatar" := by
  refine ⟨by decide, by rfl, by rfl⟩

/-- C3 amended: contact repository operations and `get_user_by_email`
return `None`/empty and mutate nothing when the addressed row is absent,
but `confirmed_email` and `update_avatar` called with an email matching
no user raise (`AttributeError`) instead of returning. -/
theorem absence_semantics
    (contact_id : Nat) (body : ContactRequest) (u : User) (db : DB)
    (email url : String) (users : List DBUser)
    (hc : ∀ x ∈ db.contacts, ¬(x.id = contact_id ∧ x.user_id = u.id))
    (hu : ∀ x ∈ users, x.email ≠ email) :
    get_contact contact_id u db = none ∧
    update_contact contact_id body u db = (none, db) ∧
    remove_contact contact_id u db = (none, db) ∧
    get_user_by_email email users = none ∧
    (∃ e, confirmed_email email users = Except.error e) ∧
    (∃ e, update_avatar email url users = Except.error e) := by
  have hcb : ∀ x ∈ db.contacts, ownedRow contact_id u x = false := by
    intro x hx
    have hnot := hc x hx
    by_contra hfalse
    rw [Bool.not_eq_false] at hfalse
    simp only [ownedRow, Bool.and_eq_true, beq_iff_eq] at hfalse
    exact hnot hfalse
  have hfind : (db.contacts.filter (ownedRow contact_id u)).head? = none :=
    filter_head?_eq_none _ _ hcb
  have hub : ∀ x ∈ users, (x.email == email) = false := by
    intro x hx
    exact beq_eq_false_iff_ne.mpr (hu x hx)
  have hulook : get_user_by_email email users = none :=
    filter_head?_eq_none _ _ hub
  refine ⟨?_, ?_, ?_, hulook, ?_, ?_⟩
  · unfold get_contact
    rw [List.filter_filter]
    apply filter_head?_eq_none
    intro x hx
    have := hcb x hx
    simpa [ownedRow] using this
  · unfold update_contact
    rw [hfind]
  · unfold remove_contact
    rw [hfind]
  · unfold confirmed_email
    rw [hulook]
    exact ⟨_, rfl⟩
  · unfold update_avatar
    rw [hulook]
    exact ⟨_, rfl⟩

/-- Closed instance of the amended C3: addressing a foreign-owned
contact id and an unknown email in a concrete store. -/
theorem absence_semantics_witness :
    get_contact 30 uW dbForeign = none ∧
    update_contact 30 bodyW uW dbForeign = (none, dbForeign) ∧
    remove_contact 30 uW dbForeign = (none, dbForeign) ∧
    get_user_by_email "absent@example.com" usersW = none ∧
    (∃ e, confirmed_email "absent@example.com" usersW = Except.error e) ∧
    (∃ e, update_avatar "absent@example.com" "https://cdn/av.png" usersW =
      Except.error e) :=
  absence_semantics 30 bodyW uW dbForeign "absent@example.com"
    "https://cdn/av.png" usersW (by decide) (by decide)

/-- C4 is a bug in the source: `find_contacts_by_birthday` accepts
`offset` and `limit` (its docstring promises skipping and capping) but
never applies them to the query — the result is identical for any
offset/limit, and with two matching contacts, offset 1 and limit 1 it
still returns both rows instead of at most one. -/
theorem find_birthday_pagination_ignored :
    (∀ (o1 l1 o2 l2 : Nat) (u : User) (db : DB) (today : Date),
        find_contacts_by_birthday o1 l1 u db today =
          find_contacts_by_birthday o2 l2 u db today) ∧
    (find_contacts_by_birthday 1 1 uW dbPag tW).length = 2 :=
  ⟨fun _ _ _ _ _ _ _ => rfl, by decide⟩

/-- C5: `find_contacts_by_birthday` returns exactly the caller's
contacts whose non-null birthday rendered as `MM-DD` lies between
today's `MM-DD` and (today+7)'s `MM-DD` in string order, inclusive; and
when the window wraps past the year boundary (so the end string is below
the start string) the result is empty. -/
theorem find_birthday_window_spec
    (offset limit : Nat) (u : User) (db : DB) (today : Date) :
    (∀ c, c ∈ find_contacts_by_birthday offset limit u db today ↔
        c ∈ db.contacts ∧ c.user_id = u.id ∧
          ∃ b, c.birthday = some b ∧
            strLe (mmdd today) (mmdd b) = true ∧
            strLe (mmdd b) (mmdd (addDays today 7)) = true) ∧
    (strLe (mmdd today) (mmdd (addDays today 7)) = false →
      find_contacts_by_birthday offset limit u db today = []) := by
  constructor
  · intro c
    unfold find_contacts_by_birthday
    rw [List.mem_filter]
    constructor
    · rintro ⟨hin, hrow⟩
      simp only [birthdayRow, Bool.and_eq_true, beq_iff_eq] at hrow
      refine ⟨hin, hrow.2, ?_⟩
      cases hb : c.birthday with
      | none => rw [hb] at hrow; simp at hrow
      | some b =>
        rw [hb] at hrow
        have := hrow.1
        simp only [Bool.and_eq_true] at this
        exact ⟨b, rfl, this.1, this.2⟩
    · rintro ⟨hin, huid, b, hb, h1, h2⟩
      refine ⟨hin, ?_⟩
      simp only [birthdayRow, hb, h1, h2, Bool.and_eq_true, beq_iff_eq,
        Bool.and_self, and_true, true_and]
      exact huid
  · intro hwrap
    unfold find_contacts_by_birthday
    rw [List.filter_eq_nil_iff]
    intro c hin
    intro hrow
    simp only [birthdayRow, Bool.and_eq_true] at hrow
    cases hb : c.birthday with
    | none => rw [hb] at hrow; simp at hrow
    | some b =>
      rw [hb] at hrow
      have hpair := hrow.1
      simp only [Bool.and_eq_true] at hpair
      have : strLe (mmdd today) (mmdd (addDays today 7)) = true :=
        strLe_trans hpair.1 hpair.2
      rw [hwrap] at this
      exact Bool.false_ne_true this

/-- Closed instance of C5: on December 28 the window string wraps below
the start string and the query returns nothing, even though `cMax` has a
birthday (December 30) inside the real 7-day window. -/
theorem find_birthday_window_spec_witness :
    strLe (mmdd dW) (mmdd (addDays dW 7)) = false ∧
    find_contacts_by_birthday 0 10 uW dbYear dW = [] :=
  ⟨by decide, (find_birthday_window_spec 0 10 uW dbYear dW).2 (by decide)⟩

/-- C6: updating a contact id that does not exist, or that belongs to a
user other than the caller, returns `None` and leaves the store exactly
as it was. -/
theorem update_contact_absent_noop
    (contact_id : Nat) (body : ContactRequest) (u : User) (db : DB)
    (h : ∀ x ∈ db.contacts, ¬(x.id = contact_id ∧ x.user_id = u.id)) :
    update_contact contact_id body u db = (none, db) := by
  have hcb : ∀ x ∈ db.contacts, ownedRow contact_id u x = false := by
    intro x hx
    have hnot := h x hx
    by_contra hfalse
    rw [Bool.not_eq_false] at hfalse
    simp only [ownedRow, Bool.and_eq_true, beq_iff_eq] at hfalse
    exact hnot hfalse
  unfold update_contact
  rw [filter_head?_eq_none _ _ hcb]

/-- Closed instance of C6: id 30 exists but is owned by user 2, so
caller `uW` gets `None` and an unchanged store. -/
theorem update_contact_absent_noop_witness :
    update_contact 30 bodyW uW dbForeign = (none, dbForeign) :=
  update_contact_absent_noop 30 bodyW uW dbForeign (by decide)

/-- C7: immediately after `create_contact`, `get_contact` on the
returned id (for the same user) yields a contact carrying exactly the
body's five field values, the assigned id, and the caller's user id. -/
theorem create_then_get_roundtrip
    (body : ContactRequest) (u : User) (db : DB)
    (hfresh : ∀ x ∈ db.contacts, x.id ≠ db.next_id) :
    get_contact (create_contact body u db).1.id u
        (create_contact body u db).2 =
      some { id := (create_contact body u db).1.id
             first_name := body.first_name
             last_name := body.last_name
             email := body.email
             phone_number := body.phone_number
             birthday := body.birthday
             user_id := u.id } := by
  unfold create_contact get_contact
  simp only []
  rw [List.filter_append, List.filter_append, List.filter_filter]
  have hnil : db.contacts.filter
      (fun c => (c.id == (db.next_id : Nat)) &&
        (c.user_id == u.id)) = [] := by
    rw [List.filter_eq_nil_iff]
    intro x hx
    simp [hfresh x hx]
  rw [hnil]
  simp

/-- Closed instance of C7: create into the empty store, then read back. -/
theorem create_then_get_roundtrip_witness :
    get_contact (create_contact bodyW uW dbEmpty).1.id uW
        (create_contact bodyW uW dbEmpty).2 =
      some { id := (create_contact bodyW uW dbEmpty).1.id
             first_name := bodyW.first_name
             last_name := bodyW.last_name
             email := bodyW.email
             phone_number := bodyW.phone_number
             birthday := bodyW.birthday
             user_id := uW.id } :=
  create_then_get_roundtrip bodyW uW dbEmpty (by decide)

/-- C8: with unique primary keys, once a first `remove_contact` has
returned a removed row, a second `remove_contact` of the same id by the
same user returns `None` and leaves the store exactly as the first call
left it. -/
theorem remove_contact_idempotent
    (contact_id : Nat) (u : User) (db : DB) (c : Contact)
    (hids : db.contacts.Pairwise (fun a b => a.id ≠ b.id))
    (h1 : (remove_contact contact_id u db).1 = some c) :
    remove_contact contact_id u (remove_contact contact_id u db).2 =
      (none, (remove_contact contact_id u db).2) := by
  unfold remove_contact at h1 ⊢
  cases hfind : (db.contacts.filter (ownedRow contact_id u)).head? with
  | none => rw [hfind] at h1; simp at h1
  | some c0 =>
    rw [hfind] at h1
    simp only [Option.some.injEq] at h1
    subst h1
    obtain ⟨_, hp⟩ := mem_of_filter_head? hfind
    obtain ⟨l1, l2, heq, hall⟩ := filter_head?_decomp hfind
    have hcid : c0.id = contact_id := by
      simp only [ownedRow, Bool.and_eq_true, beq_iff_eq] at hp
      exact hp.1
    have herase : eraseFirst (ownedRow contact_id u) db.contacts =
        l1 ++ l2 := by
      rw [heq]; exact eraseFirst_append_cons _ c0 l2 hall hp
    have hl2 : ∀ x ∈ l2, ownedRow contact_id u x = false := by
      rw [heq] at hids
      have hcl2 := ((List.pairwise_append.mp hids).2.1)
      have hcs := (List.pairwise_cons.mp hcl2).1
      intro x hx
      have hne : c0.id ≠ x.id := hcs x hx
      have hxne : x.id ≠ contact_id := fun hxeq =>
        hne (by rw [hcid, hxeq])
      simp [ownedRow, hxne]
    have hnone : ((l1 ++ l2).filter (ownedRow contact_id u)).head? =
        none := by
      apply filter_head?_eq_none
      intro x hx
      rcases List.mem_append.mp hx with hx1 | hx2
      · exact hall x hx1
      · exact hl2 x hx2
    simp only [herase, hnone]

/-- Closed instance of C8: delete the only contact, then delete again. -/
theorem remove_contact_idempotent_witness :
    remove_contact 40 uW (remove_contact 40 uW dbRem).2 =
      (none, (remove_contact 40 uW dbRem).2) :=
  remove_contact_idempotent 40 uW dbRem cRem (by decide) (by decide)

/-- C9: when `update_contact` finds the addressed row `c`, it returns
`c` with exactly the five mutable fields overwritten by the body, the id
and owner untouched, and the new store differs from the old only at that
row's position. -/
theorem update_contact_found_replaces
    (contact_id : Nat) (body : ContactRequest) (u : User) (db : DB)
    (c : Contact)
    (h : (db.contacts.filter (ownedRow contact_id u)).head? = some c) :
    (update_contact contact_id body u db).1 = some (applyBody body c) ∧
    (applyBody body c).id = c.id ∧
    (applyBody body c).user_id = c.user_id ∧
    (applyBody body c).first_name = body.first_name ∧
    (applyBody body c).last_name = body.last_name ∧
    (applyBody body c).email = body.email ∧
    (applyBody body c).phone_number = body.phone_number ∧
    (applyBody body c).birthday = body.birthday ∧
    (update_contact contact_id body u db).2.next_id = db.next_id ∧
    ∃ l1 l2, db.contacts = l1 ++ c :: l2 ∧
      (update_contact contact_id body u db).2.contacts =
        l1 ++ applyBody body c :: l2 := by
  obtain ⟨_, hp⟩ := mem_of_filter_head? h
  obtain ⟨l1, l2, heq, hall⟩ := filter_head?_decomp h
  unfold update_contact
  rw [h]
  refine ⟨rfl, rfl, rfl, rfl, rfl, rfl, rfl, rfl, rfl, l1, l2, heq, ?_⟩
  simp only [heq]
  exact replaceFirst_append_cons _ _ c l2 hall hp

/-- Closed instance of C9: update the only contact in a concrete store. -/
theorem update_contact_found_replaces_witness :
    (update_contact 40 bodyW uW dbRem).1 = some (applyBody bodyW cRem) ∧
    (applyBody bodyW cRem).id = cRem.id ∧
    (applyBody bodyW cRem).user_id = cRem.user_id ∧
    (applyBody bodyW cRem).first_name = bodyW.first_name ∧
    (applyBody bodyW cRem).last_name = bodyW.last_name ∧
    (applyBody bodyW cRem).email = bodyW.email ∧
    (applyBody bodyW cRem).phone_number = bodyW.phone_number ∧
    (applyBody bodyW cRem).birthday = bodyW.birthday ∧
    (update_contact 40 bodyW uW dbRem).2.next_id = dbRem.next_id ∧
    ∃ l1 l2, dbRem.contacts = l1 ++ cRem :: l2 ∧
      (update_contact 40 bodyW uW dbRem).2.contacts =
        l1 ++ applyBody bodyW cRem :: l2 :=
  update_contact_found_replaces 40 bodyW uW dbRem cRem (by decide)

/-- C10: when the external gravatar-style avatar lookup raises,
`create_user` swallows the failure, persists the new user with a null
avatar and all body fields intact, and returns it. -/
theorem create_user_swallows_avatar_failure
    (body : UserModel) (e : String) (next_id : Nat)
    (users : List DBUser) :
    (create_user body (Except.error e) next_id users).1.avatar = none ∧
    (create_user body (Except.error e) next_id users).1.username =
      body.username ∧
    (create_user body (Except.error e) next_id users).1.email =
      body.email ∧
    (create_user body (Except.error e) next_id users).1.password =
      body.password ∧
    (create_user body (Except.error e) next_id users).2 =
      users ++ [(create_user body (Except.error e) next_id users).1] :=
  ⟨rfl, rfl, rfl, rfl, rfl⟩

end ContactsApp
